import Mathlib

/-!
Shallow embedding of the OrdersMail repository (mail.py and
VENDIDO/so_mapper.py) and proofs about its inference logic.

Python/JSON values are modelled by `Val`.  Numbers (Python int and float
alike) are modelled as rationals, so floating-point rounding is outside the
model; none of the properties proved here depends on rounding.  Dicts are
association lists looked up at the first matching key (Python dicts have
unique keys, so any key-unique list is a faithful image).
-/

/-- A Python/JSON-like value as handled by the scripts. -/
inductive Val where
  | null
  | bool (b : Bool)
  | num (q : ℚ)
  | str (s : String)
  | list (l : List Val)
  | dict (d : List (String × Val))

mutual
/-- Decidable equality on values (the nested inductive defeats `deriving`). -/
def valDecEq : (a b : Val) → Decidable (a = b)
  | .null, .null => isTrue rfl
  | .bool x, .bool y =>
    match decEq x y with
    | isTrue h => isTrue (congrArg Val.bool h)
    | isFalse h => isFalse fun hh => h (Val.bool.inj hh)
  | .num x, .num y =>
    match decEq x y with
    | isTrue h => isTrue (congrArg Val.num h)
    | isFalse h => isFalse fun hh => h (Val.num.inj hh)
  | .str x, .str y =>
    match decEq x y with
    | isTrue h => isTrue (congrArg Val.str h)
    | isFalse h => isFalse fun hh => h (Val.str.inj hh)
  | .list x, .list y =>
    match valListDecEq x y with
    | isTrue h => isTrue (congrArg Val.list h)
    | isFalse h => isFalse fun hh => h (Val.list.inj hh)
  | .dict x, .dict y =>
    match valDictDecEq x y with
    | isTrue h => isTrue (congrArg Val.dict h)
    | isFalse h => isFalse fun hh => h (Val.dict.inj hh)
  | .null, .bool _ => isFalse fun h => Val.noConfusion h
  | .null, .num _ => isFalse fun h => Val.noConfusion h
  | .null, .str _ => isFalse fun h => Val.noConfusion h
  | .null, .list _ => isFalse fun h => Val.noConfusion h
  | .null, .dict _ => isFalse fun h => Val.noConfusion h
  | .bool _, .null => isFalse fun h => Val.noConfusion h
  | .bool _, .num _ => isFalse fun h => Val.noConfusion h
  | .bool _, .str _ => isFalse fun h => Val.noConfusion h
  | .bool _, .list _ => isFalse fun h => Val.noConfusion h
  | .bool _, .dict _ => isFalse fun h => Val.noConfusion h
  | .num _, .null => isFalse fun h => Val.noConfusion h
  | .num _, .bool _ => isFalse fun h => Val.noConfusion h
  | .num _, .str _ => isFalse fun h => Val.noConfusion h
  | .num _, .list _ => isFalse fun h => Val.noConfusion h
  | .num _, .dict _ => isFalse fun h => Val.noConfusion h
  | .str _, .null => isFalse fun h => Val.noConfusion h
  | .str _, .bool _ => isFalse fun h => Val.noConfusion h
  | .str _, .num _ => isFalse fun h => Val.noConfusion h
  | .str _, .list _ => isFalse fun h => Val.noConfusion h
  | .str _, .dict _ => isFalse fun h => Val.noConfusion h
  | .list _, .null => isFalse fun h => Val.noConfusion h
  | .list _, .bool _ => isFalse fun h => Val.noConfusion h
  | .list _, .num _ => isFalse fun h => Val.noConfusion h
  | .list _, .str _ => isFalse fun h => Val.noConfusion h
  | .list _, .dict _ => isFalse fun h => Val.noConfusion h
  | .dict _, .null => isFalse fun h => Val.noConfusion h
  | .dict _, .bool _ => isFalse fun h => Val.noConfusion h
  | .dict _, .num _ => isFalse fun h => Val.noConfusion h
  | .dict _, .str _ => isFalse fun h => Val.noConfusion h
  | .dict _, .list _ => isFalse fun h => Val.noConfusion h

/-- Decidable equality on lists of values. -/
def valListDecEq : (a b : List Val) → Decidable (a = b)
  | [], [] => isTrue rfl
  | [], _ :: _ => isFalse fun h => List.noConfusion h
  | _ :: _, [] => isFalse fun h => List.noConfusion h
  | x :: xs, y :: ys =>
    match valDecEq x y with
    | isFalse h1 => isFalse fun h => h1 (List.cons.inj h).1
    | isTrue h1 =>
      match valListDecEq xs ys with
      | isTrue h2 => isTrue (by rw [h1, h2])
      | isFalse h2 => isFalse fun h => h2 (List.cons.inj h).2

/-- Decidable equality on dict entry lists. -/
def valDictDecEq : (a b : List (String × Val)) → Decidable (a = b)
  | [], [] => isTrue rfl
  | [], _ :: _ => isFalse fun h => List.noConfusion h
  | _ :: _, [] => isFalse fun h => List.noConfusion h
  | (k1, v1) :: xs, (k2, v2) :: ys =>
    match decEq k1 k2 with
    | isFalse h1 => isFalse fun h => h1 (congrArg Prod.fst (List.cons.inj h).1)
    | isTrue h1 =>
      match valDecEq v1 v2 with
      | isFalse hv => isFalse fun h => hv (congrArg Prod.snd (List.cons.inj h).1)
      | isTrue hv =>
        match valDictDecEq xs ys with
        | isTrue h2 => isTrue (by rw [h1, hv, h2])
        | isFalse h2 => isFalse fun h => h2 (List.cons.inj h).2
end

instance : DecidableEq Val := valDecEq

/-- Python `d.get(k)`: value of the first binding of `k`; Python `None` (here
`Val.null`) when the key is absent. -/
def dGet : List (String × Val) → String → Val
  | [], _ => .null
  | (k, v) :: rest, key => if k = key then v else dGet rest key

/-- Python `k in d` for a dict. -/
def dHas : List (String × Val) → String → Bool
  | [], _ => false
  | (k, _) :: rest, key => if k = key then true else dHas rest key

/-- Python truthiness. -/
def isTruthy : Val → Bool
  | .null => false
  | .bool b => b
  | .num q => q != 0
  | .str s => s != ""
  | .list l => !l.isEmpty
  | .dict d => !d.isEmpty

/-- Python `a or b`. -/
def pyOr (a b : Val) : Val := if isTruthy a then a else b

/-- Numeric value of a digit list (most significant digit first). -/
def digitsVal (cs : List Char) : Nat := cs.foldl (fun a c => a * 10 + (c.toNat - 48)) 0

/-- Whitespace as stripped by Python (ASCII fragment). -/
def isWs (c : Char) : Bool :=
  c = ' ' || c = '\t' || c = '\n' || c = '\r' || c.toNat = 11 || c.toNat = 12

/-- Python `s.strip()` on the character list (ASCII whitespace fragment). -/
def pyStripL (cs : List Char) : List Char :=
  ((cs.dropWhile isWs).reverse.dropWhile isWs).reverse

/-- Model of Python `float(s)` on the numeric fragment the scripts feed it:
an optional sign and decimal digits with at most one decimal point
("3", "-2.5", ".5", "7.").  Exponent/inf/nan spellings never arise from the
modelled inputs and are rejected, like any other non-numeric text. -/
def parseFloatL (cs0 : List Char) : Option ℚ :=
  let step : List Char → Option ℚ := fun cs =>
    let ip := cs.takeWhile Char.isDigit
    let rest := cs.drop ip.length
    match rest with
    | [] => if ip.isEmpty then none else some (digitsVal ip)
    | '.' :: r2 =>
      let fp := r2.takeWhile Char.isDigit
      let rest2 := r2.drop fp.length
      if rest2.isEmpty && !(ip.isEmpty && fp.isEmpty) then
        some ((digitsVal ip : ℚ) + (digitsVal fp : ℚ) / ((10 : ℚ) ^ fp.length))
      else none
    | _ => none
  match cs0 with
  | '-' :: cs => (step cs).map (fun q => -q)
  | '+' :: cs => step cs
  | cs => step cs

/-- Model of `_as_float` (mail.py): tolerant float coercion.  `None` gives the
default 0; ints, floats and bools coerce numerically; strings are stripped
and "," replaced by "." before parsing; anything unconvertible (including
containers, whose `str()` form never parses) gives the default 0. -/
def _as_float (v : Val) : ℚ :=
  match v with
  | .null => 0
  | .bool b => if b then 1 else 0
  | .num q => q
  | .str s => (parseFloatL ((pyStripL s.data).map (fun c => if c = ',' then '.' else c))).getD 0
  | .list _ => 0
  | .dict _ => 0

/-- Python `float(x)`: numbers and numeric strings succeed (surrounding
whitespace ignored, no comma fix-up here); everything else raises, which the
callers below catch — modelled as `none`. -/
def pyFloat : Val → Option ℚ
  | .bool b => some (if b then 1 else 0)
  | .num q => some q
  | .str s => parseFloatL (pyStripL s.data)
  | _ => none

/-- Python `str()` of a number.  (Rationals render as "n" or "n/d" where Python
prints forms like "605" or "605.0"; both consist only of digits, a sign and
a separator, which is all the token and wattage scans below depend on.) -/
def numStr (q : ℚ) : String := toString q

/-- A single apostrophe, as used by the Python repr of strings. -/
def pyQuote : String := String.singleton (Char.ofNat 39)

mutual
/-- Python `repr()` of a value. -/
def pyRepr : Val → String
  | .null => "None"
  | .bool b => if b then "True" else "False"
  | .num q => numStr q
  | .str s => pyQuote ++ s ++ pyQuote
  | .list l => "[" ++ pyReprList l ++ "]"
  | .dict d => "\x7b" ++ pyReprDict d ++ "\x7d"

/-- Comma-joined reprs of a list's elements. -/
def pyReprList : List Val → String
  | [] => ""
  | [v] => pyRepr v
  | v :: rest => pyRepr v ++ ", " ++ pyReprList rest

/-- Comma-joined `key: value` reprs of a dict's entries. -/
def pyReprDict : List (String × Val) → String
  | [] => ""
  | [(k, v)] => pyQuote ++ k ++ pyQuote ++ ": " ++ pyRepr v
  | (k, v) :: rest => pyQuote ++ k ++ pyQuote ++ ": " ++ pyRepr v ++ ", " ++ pyReprDict rest
end

/-- Python `str()` of a value. -/
def pyStr : Val → String
  | .str s => s
  | v => pyRepr v

/-- Model of `_norm_text` (mail.py): lower-cased stripped text, "" for None
(`.lower()` modelled on the ASCII fragment). -/
def _norm_text (v : Val) : String :=
  match v with
  | .null => ""
  | v => String.mk ((pyStripL (pyStr v).data).map Char.toLower)

/-- The emptiness test of try_fields: `val in (None, "", [])`.  Note Python
`==` semantics: only `None`, the empty string and the empty list count as
empty — `0`, `False` and the empty dict all pass. -/
def isEmptyVal : Val → Bool
  | .null => true
  | .str s => s == ""
  | .list l => l.isEmpty
  | _ => false

/-- Does a customFields list entry match the candidate key?
(`isinstance(entry, dict) and entry.get("field") == key`). -/
def cfEntryMatches (e : Val) (key : String) : Bool :=
  match e with
  | .dict m =>
    match dGet m "field" with
    | .str s => s == key
    | _ => false
  | _ => false

/-- Walk a customFields list: the first dict entry whose "field" equals the
key and whose "value" is non-empty wins; empty matches are skipped. -/
def cfListFind (key : String) : List Val → Option Val
  | [] => none
  | e :: rest =>
    if cfEntryMatches e key && !(isEmptyVal (match e with | .dict m => dGet m "value" | _ => Val.null)) then
      some (match e with | .dict m => dGet m "value" | _ => Val.null)
    else cfListFind key rest

/-- One candidate key of try_fields: flat key, then the nested `attributes`
map, then `customFields` as a map, then `customFields` as a list of
`(field, value)` entries; an empty value found in one representation falls
through to the next.  (A truthy non-dict `attributes` whose membership test
succeeds would raise in Python; that corner is outside the modelled
fragment and treated as no match.) -/
def tryFieldsKey (d : List (String × Val)) (key : String) : Option Val :=
  let flat : Option Val :=
    if dHas d key && !(isEmptyVal (dGet d key)) then some (dGet d key) else none
  match flat with
  | some v => some v
  | none =>
    let fromAttrs : Option Val :=
      match pyOr (dGet d "attributes") (Val.dict []) with
      | .dict a => if dHas a key && !(isEmptyVal (dGet a key)) then some (dGet a key) else none
      | _ => none
    match fromAttrs with
    | some v => some v
    | none =>
      let fromCfMap : Option Val :=
        match dGet d "customFields" with
        | .dict m => if dHas m key && !(isEmptyVal (dGet m key)) then some (dGet m key) else none
        | _ => none
      match fromCfMap with
      | some v => some v
      | none =>
        match dGet d "customFields" with
        | .list l => cfListFind key l
        | _ => none

/-- Model of `try_fields` (so_mapper.py): first candidate name with a non-empty value
in any representation; `none` models the default (`None`). -/
def try_fields (container : Val) (candidates : List String) : Option Val :=
  match container with
  | .dict d => candidates.findSome? (tryFieldsKey d)
  | _ => none

/-- One attempt of `(?<!\d)(\d{3,4})\s*[Ww]\s*(?:[Pp])?` at the head of `cs`
(the caller guarantees the preceding character is not a digit): the maximal
digit run must have length 3 or 4 (a longer run cannot match, since after 3
or 4 of its digits the next character is a digit), then optional whitespace,
then `W`/`w`. -/
def wMatchAt (cs : List Char) : Option Nat :=
  let run := cs.takeWhile Char.isDigit
  if run.length = 3 || run.length = 4 then
    match (cs.drop run.length).dropWhile isWs with
    | c :: _ => if c = 'W' || c = 'w' then some (digitsVal run) else none
    | [] => none
  else none

/-- All captures of the wattage regex: scan every position whose preceding
character is not a digit.  For this pattern that coincides with the re.findall
non-overlapping scan, because everything a match consumes after its digit
run is a non-digit, so no new match can begin inside a consumed match. -/
def wScanAux : List Char → Bool → List Nat
  | [], _ => []
  | c :: rest, canStart =>
    let tail := wScanAux rest (!c.isDigit)
    if canStart then
      match wMatchAt (c :: rest) with
      | some n => n :: tail
      | none => tail
    else tail

/-- The physically sensible panel-wattage filter `300 <= int(x) <= 1000`. -/
def inPanelRange (n : Nat) : Bool := 300 ≤ n && n ≤ 1000

/-- In-range candidates of the explicit-W scan of one text. -/
def wCands (txt : String) : List Nat := (wScanAux txt.data true).filter inPanelRange

/-- One attempt of the bare-number regex `(?<!\d)(\d{3,4})(?!\d)`. -/
def bareMatchAt (cs : List Char) : Option Nat :=
  let run := cs.takeWhile Char.isDigit
  if run.length = 3 || run.length = 4 then some (digitsVal run) else none

/-- All captures of the bare-number regex, same scanning argument as above. -/
def bareScanAux : List Char → Bool → List Nat
  | [], _ => []
  | c :: rest, canStart =>
    let tail := bareScanAux rest (!c.isDigit)
    if canStart then
      match bareMatchAt (c :: rest) with
      | some n => n :: tail
      | none => tail
    else tail

/-- In-range candidates of the bare-number scan of one text. -/
def bareCands (txt : String) : List Nat := (bareScanAux txt.data true).filter inPanelRange

/-- Python `max` over a list of naturals (callers only use it on non-empty
lists whose entries are ≥ 300, where folding from 0 agrees with `max`). -/
def listMaxN (l : List Nat) : Nat := l.foldl max 0

/-- The candidate attribute names for the power rating. -/
def powerCandKeys : List String := ["power_w", "Potencia", "potencia_w", "power", "watt", "W"]

/-- Step 1 of extract_power_w: the structured product attribute, parsed with
`float`; `none` when the lookup fails or the value does not parse. -/
def structuredPower (product : Val) : Option ℚ :=
  (try_fields product powerCandKeys).bind pyFloat

/-- Python `str(try_fields(product, [k]) or "")`. -/
def textOfField (product : Val) (key : String) : String :=
  match try_fields product [key] with
  | some v => if isTruthy v then pyStr v else ""
  | none => ""

/-- Model of `extract_power_w` (so_mapper.py).  Tier 1: structured attribute.
Tier 2: the W-suffixed scan, applied to the four texts in order, returning
the max of the FIRST text with an in-range match.  Tier 3: the bare-number
scan, aggregated across all four texts.  Otherwise 0. -/
def extract_power_w (product : Val) (item_name item_sku : String) : ℚ :=
  match structuredPower product with
  | some f => f
  | none =>
    let texts := [item_name, item_sku, textOfField product "name", textOfField product "sku"]
    match texts.findSome? (fun t => if (wCands t).isEmpty then none else some (listMaxN (wCands t))) with
    | some m => (m : ℚ)
    | none =>
      let generic := (texts.map bareCands).flatten
      if generic.isEmpty then 0 else (listMaxN generic : ℚ)

/-- The candidate attribute names for units-per-pallet. -/
def uppCandKeys : List String :=
  ["units_per_pallet", "unitsPerPallet", "pallet_units", "ud_pallet", "uds_pallet", "unitsPallet"]

/-- Model of `extract_units_per_pallet` (so_mapper.py): `float(try_fields(...))`,
with the raising cases (`None` or a non-numeric value) collapsing to 0.0
through the `except`. -/
def extract_units_per_pallet (product : Val) : ℚ :=
  match (try_fields product uppCandKeys).bind pyFloat with
  | some q => q
  | none => 0

/-- A `\w` word character (ASCII fragment). -/
def isWordChar (c : Char) : Bool := c.isAlphanum || c = '_'

/-- Does `cs` start with `n`? -/
def startsWithL : List Char → List Char → Bool
  | [], _ => true
  | _ :: _, [] => false
  | n :: ns, c :: cs => n = c && startsWithL ns cs

/-- Suffix just after the first occurrence of `needle`. -/
def afterFirst (needle : List Char) : List Char → Option (List Char)
  | [] => if needle.isEmpty then some [] else none
  | c :: rest =>
    if startsWithL needle (c :: rest) then some ((c :: rest).drop needle.length)
    else afterFirst needle rest

/-- Is `needle` a contiguous run of `hay`? -/
def hasSub (needle : List Char) : List Char → Bool
  | [] => needle.isEmpty
  | c :: rest => startsWithL needle (c :: rest) || hasSub needle rest

/-- Python `tok in s` for strings. -/
def substrIn (tok s : String) : Bool := hasSub tok.data s.data

/-- Search for `\b605\b` in `cs`, where `prev` is the character immediately
before the current position (`none` at the start of a line — the position
after a newline or the string start, both non-word, so a boundary). -/
def b605From (prev : Option Char) : List Char → Bool
  | [] => false
  | c :: rest =>
    (startsWithL ['6', '0', '5'] (c :: rest)
      && (match prev with | some p => !isWordChar p | none => true)
      && (match (c :: rest).drop 3 with | [] => true | d :: _ => !isWordChar d))
    || b605From (some c) rest

/-- Pattern `AIKO.*MAH72M` (with IGNORECASE) on one newline-free line of lowered
text: some occurrence of "aiko" followed later in the line by "mah72m".
Using the first "aiko" occurrence is complete — it leaves the most room. -/
def rule1Line (line : List Char) : Bool :=
  match afterFirst "aiko".data line with
  | some rest => hasSub "mah72m".data rest
  | none => false

/-- Pattern `AIKO.*\b605\b` (with IGNORECASE) on one newline-free line of lowered
text.  The character just before the suffix returned by `afterFirst` is the
final letter of "aiko" — a word character. -/
def rule2Line (line : List Char) : Bool :=
  match afterFirst "aiko".data line with
  | some rest => b605From (some 'o') rest
  | none => false

/-- Python `s.split("\n")` on the character list. -/
def splitLinesL : List Char → List (List Char)
  | [] => [[]]
  | c :: rest =>
    if c = '\n' then [] :: splitLinesL rest
    else
      match splitLinesL rest with
      | l :: ls => (c :: l) :: ls
      | [] => [[c]]

/-- Model of `re.search` of a pattern whose `.` cannot cross newlines: a match exists
iff some line matches.  The IGNORECASE flag is modelled by lowering (ASCII
fragment). -/
def rule1Search (t : String) : Bool :=
  (splitLinesL (t.data.map Char.toLower)).any rule1Line

/-- Second pattern, same line-by-line search. -/
def rule2Search (t : String) : Bool :=
  (splitLinesL (t.data.map Char.toLower)).any rule2Line

/-- Python `" ".join(parts)` on character lists. -/
def joinSpaceL : List (List Char) → List Char
  | [] => []
  | [x] => x
  | x :: rest => x ++ (' ' :: joinSpaceL rest)

/-- Model of `PACK_RULES` (so_mapper.py): ordered (pattern, pack-size) data; each
compiled pattern is represented by its search predicate. -/
def PACK_RULES : List ((String → Bool) × ℚ) := [(rule1Search, 36), (rule2Search, 36)]

/-- Python `(product or \x7b\x7d).get(k)`.  (A truthy non-dict product would raise
in Python and is outside the modelled fragment.) -/
def productGet (product : Val) (key : String) : Val :=
  match pyOr product (Val.dict []) with
  | .dict d => dGet d key
  | _ => .null

/-- Model of `hint_units_per_pallet_by_pattern` (so_mapper.py): first matching rule
over the space-joined name, SKU, product name and product SKU. -/
def hint_units_per_pallet_by_pattern (name sku : String) (product : Val) : ℚ :=
  let text := String.mk (joinSpaceL
    [name.data, sku.data, (pyStr (pyOr (productGet product "name") (Val.str ""))).data,
     (pyStr (pyOr (productGet product "sku") (Val.str ""))).data])
  match PACK_RULES.find? (fun rule => rule.1 text) with
  | some rule => rule.2
  | none => 0

/-- Model of `POSSIBLE_PACK_SIZES` (so_mapper.py): ordered, slight preference for 36. -/
def POSSIBLE_PACK_SIZES : List Int := [36, 37, 35, 31, 30]

/-- The candidate pack sizes that exactly divide the quantity.  (Lean's
`Int.emod` agrees with Python `%` for the positive divisors used here.) -/
def exactDivisors (qty : Int) : List Int :=
  POSSIBLE_PACK_SIZES.filter (fun p => qty % p == 0)

/-- Python `max` over a non-empty list of ints. -/
def intMax : List Int → Int
  | [] => 0
  | x :: xs => xs.foldl max x

/-- Python `exact[0]` of the singleton exact-divisor list. -/
def intHead : List Int → Int
  | [] => 0
  | x :: _ => x

/-- The ambiguous-divisor tie-break: `36 if 36 in exact else max(exact)`. -/
def packPreferred (qty : Int) : Int :=
  if (36 : Int) ∈ exactDivisors qty then 36 else intMax (exactDivisors qty)

/-- The rejected alternatives: every exact divisor other than the preferred. -/
def rejectedDivisors (qty : Int) : List Int :=
  (exactDivisors qty).filter (fun p => p != packPreferred qty)

/-- Python `%` with a float operand: `a - b*floor(a/b)` (exact for the
positive divisors used here). -/
def qmod (a b : ℚ) : ℚ := a - b * ⌊a / b⌋

/-- Python `int()`: truncation toward zero. -/
def ratTrunc (q : ℚ) : Int := if 0 ≤ q then ⌊q⌋ else ⌈q⌉

/-- One step of the closest-divisor loop: keep the (pack, remainder) whose
score `(remainder, -pack)` is lexicographically smaller (so: strictly
smaller remainder, or equal remainder and larger pack). -/
def closestStep (qty : Int) (acc : Option (Int × Int)) (p : Int) : Option (Int × Int) :=
  let rem := qty % p
  match acc with
  | none => some (p, rem)
  | some (bp, br) => if rem < br ∨ (rem = br ∧ bp < p) then some (p, rem) else acc

/-- The closest-divisor fallback of infer_units_per_pallet. -/
def closestChoice (qty : Int) : ℚ × String × List Int × Int :=
  match POSSIBLE_PACK_SIZES.foldl (closestStep qty) none with
  | some (bp, br) => ((bp : ℚ), "closest", [], br)
  | none => (0, "closest", [], 0)

/-- Model of `infer_units_per_pallet` (so_mapper.py): returns
`(units_per_pallet, source, ambiguous_candidates, leftover)` with source in
attr / pattern / divisible / ambiguous_divisible / closest / unknown. -/
def infer_units_per_pallet (product : Val) (name sku : String) (qty : Int) :
    ℚ × String × List Int × Int :=
  if 0 < extract_units_per_pallet product then
    (extract_units_per_pallet product, "attr", [],
     if qty ≠ 0 then ratTrunc (qmod (qty : ℚ) (extract_units_per_pallet product)) else 0)
  else
    if 0 < hint_units_per_pallet_by_pattern name sku product then
      (hint_units_per_pallet_by_pattern name sku product, "pattern", [],
       if qty ≠ 0 then ratTrunc (qmod (qty : ℚ) (hint_units_per_pallet_by_pattern name sku product)) else 0)
    else if qty ≠ 0 then
      if (exactDivisors qty).length = 1 then
        ((intHead (exactDivisors qty) : ℚ), "divisible", [], 0)
      else if 2 ≤ (exactDivisors qty).length then
        ((packPreferred qty : ℚ), "ambiguous_divisible", rejectedDivisors qty, 0)
      else closestChoice qty
    else (0, "unknown", [], 0)

/-- The candidate subtotal keys of get_subtotal (mail.py), in order. -/
def candidateKeys : List String :=
  ["subtotal", "subTotal", "taxBase", "base", "baseAmount",
   "untaxed", "untaxedAmount", "totalNoTax", "total_without_tax",
   "totalWithoutTax", "net", "netAmount", "amountNet"]

/-- The explicit per-line base keys of get_subtotal, in order. -/
def lineBaseKeys : List String := ["subtotal", "subTotal", "base", "amountNet", "totalNoTax", "net"]

/-- The final clamp of the reconstruction: `if line < 0: line = 0.0`. -/
def pyClamp (x : ℚ) : ℚ := if x < 0 then 0 else x

/-- The per-line reconstruction of get_subtotal: price times quantity, a
percentage discount when truthy (a value ≤ 1 read as a fraction, > 1 as a
percent), then an absolute discount, clamped at zero. -/
def reconstructLine (price qty discPct discAbs : ℚ) : ℚ :=
  pyClamp ((if discPct ≠ 0 then (price * qty) * (1 - (if discPct ≤ 1 then discPct else discPct / 100))
            else price * qty) - discAbs)

/-- Python `price or unitPrice or unit_price or amount`, coerced. -/
def priceOf (l : List (String × Val)) : ℚ :=
  _as_float (pyOr (dGet l "price") (pyOr (dGet l "unitPrice") (pyOr (dGet l "unit_price") (dGet l "amount"))))

/-- Python `quantity or qty or units or 1`, coerced. -/
def qtyOf (l : List (String × Val)) : ℚ :=
  _as_float (pyOr (dGet l "quantity") (pyOr (dGet l "qty") (pyOr (dGet l "units") (Val.num 1))))

/-- Python `discount or discountRate or discountPercent`, coerced. -/
def discPctOf (l : List (String × Val)) : ℚ :=
  _as_float (pyOr (dGet l "discount") (pyOr (dGet l "discountRate") (dGet l "discountPercent")))

/-- Python `discountAmount or discount_amount`, coerced. -/
def discAbsOf (l : List (String × Val)) : ℚ :=
  _as_float (pyOr (dGet l "discountAmount") (dGet l "discount_amount"))

/-- One line's contribution to the reconstructed subtotal: an explicit base
field wins; otherwise the price/quantity/discount reconstruction; non-dict
lines are skipped (contribute 0). -/
def lineBase (ln : Val) : ℚ :=
  match ln with
  | .dict l =>
    match lineBaseKeys.find? (fun k => dHas l k) with
    | some k => _as_float (dGet l k)
    | none => reconstructLine (priceOf l) (qtyOf l) (discPctOf l) (discAbsOf l)
  | _ => 0

/-- Python `totals = doc.get("totals") or \x7b\x7d`. -/
def totalsVal (d : List (String × Val)) : Val := pyOr (dGet d "totals") (Val.dict [])

/-- The totals-record tier: the first candidate key present in a dict-shaped
`totals`, coerced. -/
def totalsLookup (d : List (String × Val)) : Option ℚ :=
  match totalsVal d with
  | .dict t =>
    match candidateKeys.find? (fun k => dHas t k) with
    | some k => some (_as_float (dGet t k))
    | none => none
  | _ => none

/-- Python `lines = doc.get("lines") or doc.get("products") or []`. -/
def linesVal (d : List (String × Val)) : Val :=
  pyOr (dGet d "lines") (pyOr (dGet d "products") (Val.list []))

/-- The document's line list, `[]` when `linesVal` is not a list. -/
def linesOf (d : List (String × Val)) : List Val :=
  match linesVal d with
  | .list ls => ls
  | _ => []

/-- Python `totals.get(k) if isinstance(totals, dict) else 0`. -/
def tgetTotals (totals : Val) (k : String) : Val :=
  match totals with
  | .dict t => dGet t k
  | _ => Val.num 0

/-- The `total` of the final tier: root field or dict-shaped totals field. -/
def totalOf (d : List (String × Val)) (totals : Val) : ℚ :=
  _as_float (pyOr (dGet d "total") (tgetTotals totals "total"))

/-- The `tax` of the final tier: the six-way or-chain over root and totals. -/
def taxOf (d : List (String × Val)) (totals : Val) : ℚ :=
  _as_float (pyOr (dGet d "tax") (pyOr (dGet d "taxAmount") (pyOr (dGet d "vatAmount")
    (pyOr (tgetTotals totals "tax") (pyOr (tgetTotals totals "taxAmount") (tgetTotals totals "vatAmount"))))))

/-- The final tier of get_subtotal: `max(total - tax, 0)` when a truthy
total exists, else 0. -/
def subtotalFromTotalTax (d : List (String × Val)) (totals : Val) : ℚ :=
  if totalOf d totals ≠ 0 then max (totalOf d totals - taxOf d totals) 0 else 0

/-- Model of `get_subtotal` (mail.py): root candidate key, else totals candidate key,
else summed line reconstruction, else total minus tax, else 0; a non-dict
document yields 0. -/
def get_subtotal (doc : Val) : ℚ :=
  match doc with
  | .dict d =>
    match candidateKeys.find? (fun k => dHas d k) with
    | some k => _as_float (dGet d k)
    | none =>
      match totalsLookup d with
      | some v => v
      | none =>
        match linesVal d with
        | .list (ln :: ls) => ((ln :: ls).map lineBase).sum
        | _ => subtotalFromTotalTax d (totalsVal d)
  | _ => 0

/-- Does a line lack every explicit per-line base key? -/
def lineNoBase (ln : Val) : Bool :=
  match ln with
  | .dict l => (lineBaseKeys.find? (fun k => dHas l k)).isNone
  | _ => true

/-- The cancellation-flag keys of is_invoice_finalized (mail.py). -/
def cancelKeys : List String := ["cancelled", "canceled", "isCanceled", "void", "voided"]

/-- Python `v in (True, "true", 1, "1")` under `==` (which identifies
`True`, `1` and `1.0`). -/
def isCancelFlag (v : Val) : Bool :=
  match v with
  | .bool b => b
  | .num q => q == 1
  | .str s => s == "true" || s == "1"
  | _ => false

/-- The numeric-status veto of is_invoice_finalized: `int(raw)` in
(0, 9, 99) — draft or void.  `bool` is a Python `int` subclass, so it takes
this branch too. -/
def numericDraftOrVoid (raw : Val) : Bool :=
  match raw with
  | .bool b => (if b then (1 : Int) else 0) == 0 || (if b then (1 : Int) else 0) == 9 || (if b then (1 : Int) else 0) == 99
  | .num q => ratTrunc q == 0 || ratTrunc q == 9 || ratTrunc q == 99
  | _ => false

/-- The cancellation text tokens. -/
def cancelTokens : List String := ["cancel", "anul", "void"]

/-- The draft text tokens. -/
def draftTokens : List String := ["draft", "borrador", "temp"]

/-- Model of `is_invoice_finalized` (mail.py).  `raw` is the or-chain over status,
state, docStatus and statusCode (so a falsy value such as the number 0
falls through to the next key); explicit cancellation flags veto first,
then the numeric draft/void codes, then the text tokens; default True. -/
def is_invoice_finalized (inv : List (String × Val)) : Bool :=
  let raw := pyOr (dGet inv "status") (pyOr (dGet inv "state") (pyOr (dGet inv "docStatus") (dGet inv "statusCode")))
  let statusTxt := _norm_text raw
  if cancelKeys.any (fun k => isCancelFlag (dGet inv k)) then false
  else if numericDraftOrVoid raw then false
  else if cancelTokens.any (fun t => substrIn t statusTxt) then false
  else if draftTokens.any (fun t => substrIn t statusTxt) then false
  else true

/-- Model of `doc_number` (mail.py): the first truthy identifier field, else "-". -/
def doc_number (m : List (String × Val)) : Val :=
  pyOr (dGet m "number") (pyOr (dGet m "docNumber") (pyOr (dGet m "code")
    (pyOr (dGet m "serial") (pyOr (dGet m "_id") (pyOr (dGet m "id") (Val.str "-"))))))

/-- The ledger update of main (mail.py):
`processed_invoices.union(doc_number(inv) for inv in invoices_all)`. -/
def merge_ledger (ledger : Finset Val) (batch : List (List (String × Val))) : Finset Val :=
  ledger ∪ (batch.map doc_number).toFinset

/-- The new-documents filter of main (mail.py):
`[inv for inv in invoices_all if doc_number(inv) not in processed_invoices]`. -/
def new_docs (batch : List (List (String × Val))) (ledger : Finset Val) : List (List (String × Val)) :=
  batch.filter (fun inv => decide (doc_number inv ∉ ledger))

/-- Python `set(x)`: the elements of an iterable (list elements, string
characters, dict keys); `none` models the TypeError on non-iterables. -/
def set_of_val : Val → Option (List Val)
  | .list l => some l
  | .str s => some (s.data.map (fun c => Val.str (String.singleton c)))
  | .dict m => some (m.map (fun kv => Val.str kv.1))
  | _ => none

/-- Model of `load_processed_invoices` (mail.py).  The file system and json.loads
are external collaborators, modelled as the optional file `content` and a
`parseJson` function; a missing file, a parse failure or a failing `set()`
conversion all yield the empty set — the `except` swallows every error. -/
def load_processed_invoices (parseJson : String → Option Val) (content : Option String) : Finset Val :=
  match content with
  | none => ∅
  | some s =>
    match parseJson s with
    | none => ∅
    | some v =>
      match set_of_val v with
      | none => ∅
      | some l => l.toFinset

/-! ### Helper lemmas -/

theorem pyClamp_nonneg (x : ℚ) : 0 ≤ pyClamp x := by
  unfold pyClamp
  split
  · exact le_refl 0
  · exact not_lt.mp (by assumption)

theorem reconstructLine_nonneg (price qty discPct discAbs : ℚ) :
    0 ≤ reconstructLine price qty discPct discAbs := by
  unfold reconstructLine
  exact pyClamp_nonneg _

theorem lineBase_nonneg (ln : Val) (h : lineNoBase ln = true) : 0 ≤ lineBase ln := by
  match ln with
  | .null => simp [lineBase]
  | .bool _ => simp [lineBase]
  | .num _ => simp [lineBase]
  | .str _ => simp [lineBase]
  | .list _ => simp [lineBase]
  | .dict l =>
    simp only [lineNoBase, Option.isNone_iff_eq_none] at h
    simp only [lineBase, h]
    exact reconstructLine_nonneg _ _ _ _

theorem subtotalFromTotalTax_nonneg (d : List (String × Val)) (totals : Val) :
    0 ≤ subtotalFromTotalTax d totals := by
  unfold subtotalFromTotalTax
  split
  · exact le_max_right _ 0
  · exact le_refl 0

theorem le_foldl_max (xs : List Int) (a : Int) : a ≤ xs.foldl max a := by
  induction xs generalizing a with
  | nil => exact le_refl a
  | cons y ys ih => exact le_trans (le_max_left a y) (ih (max a y))

theorem intMax_pos (l : List Int) (hpos : ∀ x ∈ l, 0 < x) (hne : l ≠ []) : 0 < intMax l := by
  match l with
  | [] => exact absurd rfl hne
  | x :: xs =>
    exact lt_of_lt_of_le (hpos x (List.mem_cons_self x xs)) (le_foldl_max xs x)

theorem exactDivisors_pos (qty : Int) : ∀ x ∈ exactDivisors qty, 0 < x := by
  intro x hx
  have hmem : x ∈ POSSIBLE_PACK_SIZES := List.mem_of_mem_filter hx
  simp only [POSSIBLE_PACK_SIZES, List.mem_cons, List.not_mem_nil, or_false] at hmem
  rcases hmem with rfl | rfl | rfl | rfl | rfl <;> norm_num

theorem closest_foldl_pos (qty : Int) (l : List Int) :
    ∀ (acc : Option (Int × Int)), (∀ x ∈ l, 0 < x) →
    (∀ bp br, acc = some (bp, br) → 0 < bp) →
    ∀ bp br, l.foldl (closestStep qty) acc = some (bp, br) → 0 < bp := by
  induction l with
  | nil => intro acc _ hacc bp br h; exact hacc bp br h
  | cons p ps ih =>
    intro acc hl hacc bp br h
    simp only [List.foldl_cons] at h
    refine ih (closestStep qty acc p) (fun x hx => hl x (List.mem_cons_of_mem p hx)) ?_ bp br h
    intro bp2 br2 hstep
    unfold closestStep at hstep
    rcases acc with _ | ⟨bp0, br0⟩
    · simp only [Option.some.injEq, Prod.mk.injEq] at hstep
      rcases hstep with ⟨rfl, _⟩
      exact hl p (List.mem_cons_self p ps)
    · simp only at hstep
      split at hstep
      · simp only [Option.some.injEq, Prod.mk.injEq] at hstep
        rcases hstep with ⟨rfl, _⟩
        exact hl p (List.mem_cons_self p ps)
      · exact hacc bp2 br2 hstep

theorem closest_foldl_isSome (qty : Int) (l : List Int) :
    ∀ (acc : Option (Int × Int)), acc.isSome → (l.foldl (closestStep qty) acc).isSome := by
  induction l with
  | nil => intro acc h; exact h
  | cons p ps ih =>
    intro acc h
    simp only [List.foldl_cons]
    refine ih (closestStep qty acc p) ?_
    unfold closestStep
    rcases acc with _ | ⟨bp0, br0⟩
    · rfl
    · simp only
      split <;> rfl

theorem closestChoice_pos (qty : Int) : 0 < (closestChoice qty).1 := by
  unfold closestChoice
  rcases hfold : POSSIBLE_PACK_SIZES.foldl (closestStep qty) none with _ | ⟨bp, br⟩
  · have h1 : (POSSIBLE_PACK_SIZES.foldl (closestStep qty) none).isSome := by
      show (List.foldl (closestStep qty) none (36 :: [37, 35, 31, 30])).isSome
      rw [List.foldl_cons]
      exact closest_foldl_isSome qty [37, 35, 31, 30] (closestStep qty none 36) rfl
    rw [hfold] at h1
    exact absurd h1 (by simp)
  · have hpos : 0 < bp := by
      refine closest_foldl_pos qty POSSIBLE_PACK_SIZES none ?_ ?_ bp br hfold
      · intro x hx
        simp only [POSSIBLE_PACK_SIZES, List.mem_cons, List.not_mem_nil, or_false] at hx
        rcases hx with rfl | rfl | rfl | rfl | rfl <;> norm_num
      · intro bp2 br2 h; exact absurd h (by simp)
    simp only
    exact_mod_cast hpos

/-! ### Claim theorems -/

/-- C1 (amended): during line-by-line reconstruction a line-level base is
clamped to zero if discounts would drive it negative, and get_subtotal is
non-negative whenever no candidate key resolves at the root or in totals
and no line carries an explicit per-line base field.  (As stated the claim
is false: the direct root/totals tiers return the stored value coerced,
which may be negative — see the counterexample.) -/
theorem get_subtotal_nonneg_when_reconstructed :
    (∀ price qty discPct discAbs : ℚ, 0 ≤ reconstructLine price qty discPct discAbs) ∧
    ∀ d : List (String × Val),
      candidateKeys.find? (fun k => dHas d k) = none →
      totalsLookup d = none →
      (∀ ln ∈ linesOf d, lineNoBase ln = true) →
      0 ≤ get_subtotal (Val.dict d) := by
  constructor
  · exact reconstructLine_nonneg
  · intro d h1 h2 h3
    simp only [get_subtotal, h1, h2]
    cases hlv : linesVal d with
    | list ls =>
      cases ls with
      | nil => exact subtotalFromTotalTax_nonneg d (totalsVal d)
      | cons ln ls2 =>
        simp only
        apply List.sum_nonneg
        intro x hx
        obtain ⟨ln2, hln2, rfl⟩ := List.mem_map.mp hx
        refine lineBase_nonneg ln2 (h3 ln2 ?_)
        simp only [linesOf, hlv]
        exact hln2
    | null => exact subtotalFromTotalTax_nonneg d (totalsVal d)
    | bool b => exact subtotalFromTotalTax_nonneg d (totalsVal d)
    | num q => exact subtotalFromTotalTax_nonneg d (totalsVal d)
    | str s => exact subtotalFromTotalTax_nonneg d (totalsVal d)
    | dict dd => exact subtotalFromTotalTax_nonneg d (totalsVal d)

/-- C1 witness: a document whose only line has price 5 and an absolute
discount of 10 reconstructs to a non-negative subtotal. -/
theorem get_subtotal_nonneg_when_reconstructed_witness :
    0 ≤ get_subtotal (Val.dict [("lines", Val.list [Val.dict [("price", Val.num 5), ("discountAmount", Val.num 10)]])]) :=
  get_subtotal_nonneg_when_reconstructed.2
    [("lines", Val.list [Val.dict [("price", Val.num 5), ("discountAmount", Val.num 10)]])]
    (by decide) (by decide) (by decide)

/-- C1 counterexample: a document whose root `subtotal` field is -5 makes
get_subtotal return a negative number, refuting "never returns a negative
value ... regardless of which resolution tier produced it". -/
theorem get_subtotal_negative_direct_field :
    get_subtotal (Val.dict [("subtotal", Val.num (-5))]) < 0 := by
  norm_num +decide [get_subtotal, candidateKeys, dHas, dGet, _as_float, List.find?]

/-- C2: the failing input of the status-code bug.  A document whose only
status field is the number 0 is classified as finalized, because the
or-chain `status or state or docStatus or statusCode` discards the falsy 0
and the numeric draft branch never sees it — while a document carrying the
same 0 in `statusCode` (the last key, returned even when falsy) is
correctly classified as not finalized. -/
theorem is_invoice_finalized_status_zero_bug :
    is_invoice_finalized [("status", Val.num 0)] = true ∧
    is_invoice_finalized [("statusCode", Val.num 0)] = false := by decide

/-- C5: when no product attribute and no pattern rule yields a pack size,
the quantity is nonzero, and at least two candidate pack sizes divide it
exactly, infer_units_per_pallet prefers 36 when it is among the divisors
and otherwise the largest divisor (`packPreferred`), records every other
exact divisor as rejected (`rejectedDivisors`), reports leftover 0 and the
`ambiguous_divisible` provenance (the spec's "ambiguous-divisor"). -/
theorem infer_units_ambiguous_divisor (product : Val) (name sku : String) (qty : Int)
    (h1 : extract_units_per_pallet product ≤ 0)
    (h2 : hint_units_per_pallet_by_pattern name sku product ≤ 0)
    (h3 : qty ≠ 0)
    (h4 : 2 ≤ (exactDivisors qty).length) :
    infer_units_per_pallet product name sku qty =
      ((packPreferred qty : ℚ), "ambiguous_divisible", rejectedDivisors qty, 0) := by
  unfold infer_units_per_pallet
  rw [if_neg (not_lt.mpr h1), if_neg (not_lt.mpr h2), if_pos h3, if_neg (by omega), if_pos h4]

/-- C5 witness: quantity 180 divides by both 36 and 30; the result is pack
36, provenance ambiguous_divisible, rejected [30], leftover 0. -/
theorem infer_units_ambiguous_divisor_witness :
    infer_units_per_pallet (Val.dict []) "" "" 180 = ((36 : ℚ), "ambiguous_divisible", [30], 0) := by
  have h := infer_units_ambiguous_divisor (Val.dict []) "" "" 180 (by decide) (by decide) (by decide) (by decide)
  rw [h]
  decide

/-- C6 (amended): infer_units_per_pallet returns provenance "unknown" only
when the quantity is zero — and in exactly that case the pack size is 0,
not > 0 as the claim states (see the counterexample); on every other
provenance the pack size is strictly positive. -/
theorem infer_units_pack_pos_or_unknown (product : Val) (name sku : String) (qty : Int) :
    ((infer_units_per_pallet product name sku qty).2.1 = "unknown" →
      (infer_units_per_pallet product name sku qty).1 = 0 ∧ qty = 0) ∧
    ((infer_units_per_pallet product name sku qty).2.1 ≠ "unknown" →
      0 < (infer_units_per_pallet product name sku qty).1) := by
  unfold infer_units_per_pallet
  by_cases h1 : 0 < extract_units_per_pallet product
  · rw [if_pos h1]
    dsimp only
    exact ⟨fun hc => absurd hc (by decide), fun _ => h1⟩
  · rw [if_neg h1]
    by_cases h2 : 0 < hint_units_per_pallet_by_pattern name sku product
    · rw [if_pos h2]
      dsimp only
      exact ⟨fun hc => absurd hc (by decide), fun _ => h2⟩
    · rw [if_neg h2]
      by_cases h3 : qty ≠ 0
      · rw [if_pos h3]
        by_cases h4 : (exactDivisors qty).length = 1
        · rw [if_pos h4]
          dsimp only
          refine ⟨fun hc => absurd hc (by decide), fun _ => ?_⟩
          have hpos : 0 < intHead (exactDivisors qty) := by
            rcases hE : exactDivisors qty with _ | ⟨x, xs⟩
            · rw [hE] at h4; simp at h4
            · have hx := exactDivisors_pos qty x (by rw [hE]; exact List.mem_cons_self x xs)
              simpa [intHead] using hx
          exact_mod_cast hpos
        · rw [if_neg h4]
          by_cases h5 : 2 ≤ (exactDivisors qty).length
          · rw [if_pos h5]
            dsimp only
            refine ⟨fun hc => absurd hc (by decide), fun _ => ?_⟩
            have hpos : 0 < packPreferred qty := by
              unfold packPreferred
              split
              · norm_num
              · refine intMax_pos _ (exactDivisors_pos qty) ?_
                intro hE; rw [hE] at h5; simp at h5
            exact_mod_cast hpos
          · rw [if_neg h5]
            constructor
            · intro hc
              have hcl : (closestChoice qty).2.1 = "closest" := by
                unfold closestChoice
                rcases POSSIBLE_PACK_SIZES.foldl (closestStep qty) none with _ | ⟨bp, br⟩ <;> rfl
              rw [hcl] at hc
              exact absurd hc (by decide)
            · intro _
              exact closestChoice_pos qty
      · rw [if_neg h3]
        dsimp only
        exact ⟨fun _ => ⟨rfl, not_not.mp h3⟩, fun hc => absurd rfl hc⟩

/-- C6 witness: quantity 72 (no attribute, no pattern) yields a provenance
other than unknown and a strictly positive pack size. -/
theorem infer_units_pack_pos_or_unknown_witness :
    (infer_units_per_pallet (Val.dict []) "" "" 72).2.1 ≠ "unknown" ∧
    0 < (infer_units_per_pallet (Val.dict []) "" "" 72).1 :=
  ⟨by decide, (infer_units_pack_pos_or_unknown (Val.dict []) "" "" 72).2 (by decide)⟩

/-- C6 counterexample: with quantity 0 and no attribute or pattern the
returned pack size is 0, refuting "always returns a pack size > 0". -/
theorem infer_units_zero_qty_pack_zero :
    infer_units_per_pallet (Val.dict []) "" "" 0 = ((0 : ℚ), "unknown", [], 0) ∧
    ¬ 0 < (infer_units_per_pallet (Val.dict []) "" "" 0).1 := by decide

/-- C7: a `subtotal` key present at the document root wins outright (it is
the first candidate key, so get_subtotal returns its coerced value
regardless of totals, lines, total or tax), and a document with no
candidate keys and no lines but total 121 and tax 21 resolves to
max(121 - 21, 0) = 100. -/
theorem get_subtotal_direct_field_precedence_and_total_minus_tax :
    (∀ d : List (String × Val), dHas d "subtotal" = true →
      get_subtotal (Val.dict d) = _as_float (dGet d "subtotal")) ∧
    get_subtotal (Val.dict [("total", Val.num 121), ("tax", Val.num 21)]) = 100 := by
  constructor
  · intro d h
    have hfind : candidateKeys.find? (fun k => dHas d k) = some "subtotal" := by
      unfold candidateKeys
      rw [List.find?_cons_of_pos _ h]
    simp only [get_subtotal, hfind]
  · norm_num +decide [get_subtotal, candidateKeys, dHas, dGet, totalsLookup, totalsVal, linesVal,
      pyOr, isTruthy, _as_float, subtotalFromTotalTax, totalOf, taxOf, tgetTotals, List.find?]

/-- C7 witness: with root subtotal 50 and a contradicting total 999, the
root field is returned directly. -/
theorem get_subtotal_direct_field_precedence_witness :
    dHas [("subtotal", Val.num 50), ("total", Val.num 999)] "subtotal" = true ∧
    get_subtotal (Val.dict [("subtotal", Val.num 50), ("total", Val.num 999)]) =
      _as_float (dGet [("subtotal", Val.num 50), ("total", Val.num 999)] "subtotal") :=
  ⟨by decide, get_subtotal_direct_field_precedence_and_total_minus_tax.1 _ (by decide)⟩

/-- C10: in the line reconstruction of get_subtotal, a line with no explicit
base field whose quantity/qty/units lookups are all falsy gets quantity 1
(`... or 1`), so it contributes its full unit price minus discounts: the
resolved quantity is 1, the line base is the price-at-quantity-1
reconstruction, and a one-line document's subtotal equals that value. -/
theorem lineBase_falsy_quantity_one (l : List (String × Val))
    (hb : lineBaseKeys.find? (fun k => dHas l k) = none)
    (hq1 : isTruthy (dGet l "quantity") = false)
    (hq2 : isTruthy (dGet l "qty") = false)
    (hq3 : isTruthy (dGet l "units") = false) :
    qtyOf l = 1 ∧
    lineBase (Val.dict l) = reconstructLine (priceOf l) 1 (discPctOf l) (discAbsOf l) ∧
    get_subtotal (Val.dict [("lines", Val.list [Val.dict l])]) =
      reconstructLine (priceOf l) 1 (discPctOf l) (discAbsOf l) := by
  have hq : qtyOf l = 1 := by
    simp [qtyOf, pyOr, hq1, hq2, hq3, _as_float]
  have hlb : lineBase (Val.dict l) = reconstructLine (priceOf l) 1 (discPctOf l) (discAbsOf l) := by
    simp only [lineBase, hb]
    rw [hq]
  refine ⟨hq, hlb, ?_⟩
  have hroot : candidateKeys.find? (fun k => dHas [("lines", Val.list [Val.dict l])] k) = none := rfl
  have htot : totalsLookup [("lines", Val.list [Val.dict l])] = none := rfl
  have hlv : linesVal [("lines", Val.list [Val.dict l])] = Val.list [Val.dict l] := rfl
  simp only [get_subtotal, hroot, htot, hlv, List.map_cons, List.map_nil, List.sum_cons,
    List.sum_nil, add_zero]
  exact hlb

/-- C10 witness: a line with price 7 and quantity 0 contributes 7, not 0. -/
theorem lineBase_falsy_quantity_one_witness :
    get_subtotal (Val.dict [("lines", Val.list [Val.dict [("price", Val.num 7), ("quantity", Val.num 0)]])]) = 7 := by
  have h := (lineBase_falsy_quantity_one [("price", Val.num 7), ("quantity", Val.num 0)]
    (by decide) (by decide) (by decide) (by decide)).2.2
  rw [h]
  norm_num +decide [reconstructLine, pyClamp, priceOf, discPctOf, discAbsOf, pyOr, isTruthy,
    dGet, _as_float]

/-- C3 (amended): when the structured attribute yields nothing parseable the
W-suffixed scan is applied to the four text sources in order and the result
is the maximum of the in-range matches of the FIRST source that has any —
not the maximum over the union of all sources (see the counterexample):
an item name with a match decides the result by itself, and only when the
item name has none does the item SKU decide. -/
theorem extract_power_w_first_source_max (product : Val) (item_name item_sku : String)
    (h0 : structuredPower product = none) :
    (wCands item_name ≠ [] →
      extract_power_w product item_name item_sku = (listMaxN (wCands item_name) : ℚ)) ∧
    (wCands item_name = [] → wCands item_sku ≠ [] →
      extract_power_w product item_name item_sku = (listMaxN (wCands item_sku) : ℚ)) := by
  constructor
  · intro h1
    obtain ⟨x, xs, hx⟩ : ∃ x xs, wCands item_name = x :: xs := by
      rcases h : wCands item_name with _ | ⟨a, l⟩
      · exact absurd h h1
      · exact ⟨a, l, rfl⟩
    unfold extract_power_w
    rw [h0]
    simp [List.findSome?_cons, hx]
  · intro h1 h2
    obtain ⟨x, xs, hx⟩ : ∃ x xs, wCands item_sku = x :: xs := by
      rcases h : wCands item_sku with _ | ⟨a, l⟩
      · exact absurd h h2
      · exact ⟨a, l, rfl⟩
    unfold extract_power_w
    rw [h0]
    simp [List.findSome?_cons, h1, hx]

/-- C3 witness: with no product attribute, an item name "605 Wp" resolves
to the maximum (605) of its own W-matches. -/
theorem extract_power_w_first_source_max_witness :
    structuredPower (Val.dict []) = none ∧ wCands "605 Wp" ≠ [] ∧
    extract_power_w (Val.dict []) "605 Wp" "" = (listMaxN (wCands "605 Wp") : ℚ) :=
  ⟨by decide, by decide,
   (extract_power_w_first_source_max (Val.dict []) "605 Wp" "" (by decide)).1 (by decide)⟩

/-- C3 counterexample: item name "Panel 350W" with item SKU "SKU-600W"
yields 350, not the 600 that the union-across-sources maximum (and the
claim's example) demands. -/
theorem extract_power_w_not_union_max :
    extract_power_w (Val.dict []) "Panel 350W" "SKU-600W" = 350 ∧
    extract_power_w (Val.dict []) "Panel 350W" "SKU-600W" ≠ 600 := by decide

/-- C4 (amended): for every candidate key other than the resolver's own
structural keys `attributes` and `customFields` (on which the claim fails —
see the counterexample), a non-empty value stored flat, under `attributes`,
under `customFields`-as-map or under `customFields`-as-list resolves to the
identical value; and an empty value (null, "", []) found in one
representation is skipped in favour of the next representation or the next
candidate. -/
theorem try_fields_representation_agreement (k : String) (v : Val)
    (hk1 : k ≠ "attributes") (hk2 : k ≠ "customFields") (hv : isEmptyVal v = false) :
    try_fields (Val.dict [(k, v)]) [k] = some v ∧
    try_fields (Val.dict [("attributes", Val.dict [(k, v)])]) [k] = some v ∧
    try_fields (Val.dict [("customFields", Val.dict [(k, v)])]) [k] = some v ∧
    try_fields (Val.dict [("customFields", Val.list [Val.dict [("field", Val.str k), ("value", v)]])]) [k] = some v ∧
    (∀ e, isEmptyVal e = true →
      try_fields (Val.dict [(k, e), ("attributes", Val.dict [(k, v)])]) [k] = some v) ∧
    (∀ k2 v2 e, k2 ≠ k → k2 ≠ "attributes" → k2 ≠ "customFields" →
      isEmptyVal v2 = false → isEmptyVal e = true →
      try_fields (Val.dict [(k, e), (k2, v2)]) [k, k2] = some v2) := by
  refine ⟨?_, ?_, ?_, ?_, ?_, ?_⟩
  · simp [try_fields, tryFieldsKey, dHas, dGet, hv]
  · simp [try_fields, tryFieldsKey, dHas, dGet, pyOr, isTruthy, hv, Ne.symm hk1, Ne.symm hk2]
  · simp [try_fields, tryFieldsKey, dHas, dGet, pyOr, isTruthy, hv, Ne.symm hk1, Ne.symm hk2]
  · simp [try_fields, tryFieldsKey, dHas, dGet, pyOr, isTruthy, hv, Ne.symm hk1, Ne.symm hk2,
      cfListFind, cfEntryMatches]
  · intro e he
    simp [try_fields, tryFieldsKey, dHas, dGet, pyOr, isTruthy, hv, he, hk1, hk2,
      Ne.symm hk1, Ne.symm hk2, List.findSome?_cons]
  · intro k2 v2 e hk2k hk2a hk2c hv2 he
    simp [try_fields, tryFieldsKey, dHas, dGet, pyOr, isTruthy, hv2, he, hk1, hk2,
      Ne.symm hk1, Ne.symm hk2, Ne.symm hk2k, hk2k, hk2a, hk2c, Ne.symm hk2a, Ne.symm hk2c,
      List.findSome?_cons]

/-- C4 witness: the key "power_w" with value 5 resolves identically from
the nested attributes representation. -/
theorem try_fields_representation_agreement_witness :
    ("power_w" : String) ≠ "attributes" ∧ ("power_w" : String) ≠ "customFields" ∧
    isEmptyVal (Val.num 5) = false ∧
    try_fields (Val.dict [("attributes", Val.dict [("power_w", Val.num 5)])]) ["power_w"] = some (Val.num 5) :=
  ⟨by decide, by decide, by decide,
   (try_fields_representation_agreement "power_w" (Val.num 5) (by decide) (by decide) (by decide)).2.1⟩

/-- C4 counterexample: for the key "attributes" itself, the value 5 stored
in the nested attributes representation does NOT resolve to 5 — the flat
probe returns the whole attributes map instead, refuting the claim's
universal "for every key k". -/
theorem try_fields_reserved_key_mismatch :
    try_fields (Val.dict [("attributes", Val.dict [("attributes", Val.num 5)])]) ["attributes"] =
      some (Val.dict [("attributes", Val.num 5)]) ∧
    try_fields (Val.dict [("attributes", Val.dict [("attributes", Val.num 5)])]) ["attributes"] ≠
      some (Val.num 5) := by decide

/-- C8: merging a batch's identifiers into the ledger is idempotent, the
merged ledger contains the old one, and the new-documents diff of the same
batch against the merged ledger is empty. -/
theorem ledger_merge_idempotent_superset_diff_empty (ledger : Finset Val)
    (batch : List (List (String × Val))) :
    merge_ledger (merge_ledger ledger batch) batch = merge_ledger ledger batch ∧
    ledger ⊆ merge_ledger ledger batch ∧
    new_docs batch (merge_ledger ledger batch) = [] := by
  refine ⟨?_, ?_, ?_⟩
  · unfold merge_ledger
    rw [Finset.union_assoc, Finset.union_self]
  · exact Finset.subset_union_left
  · unfold new_docs
    rw [List.filter_eq_nil_iff]
    intro inv hinv
    simp only [decide_eq_true_eq, not_not]
    unfold merge_ledger
    apply Finset.mem_union_right
    rw [List.mem_toFinset]
    exact List.mem_map_of_mem doc_number hinv

/-- C9: load_processed_invoices returns the empty set whenever the
persisted file is absent or its content does not parse, and likewise when
the parsed value cannot be converted to a set; no error escapes (the
function is total).  The file system and json.loads are external
collaborators, abstracted as the `content` option and the `parseJson`
argument, so this holds for every parser. -/
theorem load_processed_invoices_corruption_safe (parseJson : String → Option Val)
    (content : Option String) :
    ((∀ s, content = some s → parseJson s = none) →
      load_processed_invoices parseJson content = ∅) ∧
    (∀ s v, content = some s → parseJson s = some v → set_of_val v = none →
      load_processed_invoices parseJson content = ∅) := by
  constructor
  · intro h
    rcases content with _ | s
    · rfl
    · simp only [load_processed_invoices, h s rfl]
  · intro s v hc hp hs
    subst hc
    simp only [load_processed_invoices, hp, hs]

/-- C9 witness: a parser that always fails on a present file yields the
empty ledger. -/
theorem load_processed_invoices_corruption_safe_witness :
    load_processed_invoices (fun _ => none) (some "garbage") = ∅ :=
  (load_processed_invoices_corruption_safe (fun _ => none) (some "garbage")).1 (fun _ _ => rfl)
